import Mathlib

/-!
Verification of the Garage 2007 idle-clicker economy engine.

The development shallowly embeds the game-economy code:

* `MStore` — the milestone-gated Zustand store (`useGameStore` with
  `milestonesPurchased`, worker limits 3/5/3/2/1 and the gate-aware
  `checkAutoLevel`).  Money amounts are embedded as exact rationals; the
  JavaScript `parseFloat(x.toFixed(2))` idiom is embedded as `jsToFixed2`.
* `TStore` — the click-income lookup-table variant of the store
  (`CLICK_INCOME_TABLE` and its geometric extrapolation past level 50).
* `StorageService` — the persistence adapter (`saveGame` / `loadGame` /
  `deepMerge` / `calculateOfflineEarnings`), with the browser local storage
  modelled as an optional stored document and `Date.now()` passed explicitly.
-/

/-- Embedding of the JavaScript `parseFloat(x.toFixed(2))` idiom used for all
money rounding in the store: round to the nearest multiple of 1/100
(half away from zero for the positive amounts that occur in the game). -/
def jsToFixed2 (q : ℚ) : ℚ := (⌊q * 100 + 1/2⌋ : ℚ) / 100

namespace MStore

/-- Single cost-growth multiplier for all systems (`COST_MULTIPLIER = 1.15`). -/
def COST_MULTIPLIER : ℚ := 23 / 20

/-- Embeds `WORK_SPEED_BONUS_PER_LEVEL = 0.1`: each work-speed level adds +10%. -/
def WORK_SPEED_BONUS_PER_LEVEL : ℚ := 1 / 10

/-- Embeds `CRITICAL_CLICK_MULTIPLIER = 2`. -/
def CRITICAL_CLICK_MULTIPLIER : ℚ := 2

/-- Worker types of the milestone-gated store. -/
inductive WorkerType where
  | apprentice
  | mechanic
  | master
  | brigadier
  | director
deriving DecidableEq, Repr

/-- Embeds `BASE_COSTS` for the worker entries. -/
def BASE_COSTS_worker : WorkerType → ℚ
  | .apprentice => 500
  | .mechanic => 5000
  | .master => 50000
  | .brigadier => 500000
  | .director => 5000000

/-- Embeds `BASE_COSTS.clickUpgrade`. -/
def BASE_COSTS_clickUpgrade : ℚ := 100

/-- Embeds `BASE_COSTS.workSpeed`. -/
def BASE_COSTS_workSpeed : ℚ := 500

/-- Embeds `WORKER_INCOME` (rubles per second for one worker of each type). -/
def WORKER_INCOME : WorkerType → ℚ
  | .apprentice => 2
  | .mechanic => 20
  | .master => 200
  | .brigadier => 2000
  | .director => 20000

/-- Embeds `WORKER_LIMITS`: hard caps 3/5/3/2/1. -/
def WORKER_LIMITS : WorkerType → ℕ
  | .apprentice => 3
  | .mechanic => 5
  | .master => 3
  | .brigadier => 2
  | .director => 1

/-- Embeds `GARAGE_LEVEL_THRESHOLDS`: balance needed to reach each level (keys 1..20). -/
def GARAGE_LEVEL_THRESHOLDS : ℕ → Option ℚ
  | 1 => some 0
  | 2 => some 10000
  | 3 => some 50000
  | 4 => some 200000
  | 5 => some 1000000
  | 6 => some 5000000
  | 7 => some 25000000
  | 8 => some 100000000
  | 9 => some 300000000
  | 10 => some 1000000000
  | 11 => some 5000000000
  | 12 => some 25000000000
  | 13 => some 100000000000
  | 14 => some 300000000000
  | 15 => some 1000000000000
  | 16 => some 5000000000000
  | 17 => some 25000000000000
  | 18 => some 100000000000000
  | 19 => some 300000000000000
  | 20 => some 1000000000000000
  | _ => none

/-- Embeds `MILESTONE_LEVELS = [5, 10, 15, 20]`. -/
def MILESTONE_LEVELS : List ℕ := [5, 10, 15, 20]

/-- Costs of the `MILESTONE_UPGRADES` entries (defined only on milestone levels). -/
def MILESTONE_UPGRADES_cost : ℕ → Option ℚ
  | 5 => some 1000000
  | 10 => some 1000000000
  | 15 => some 1000000000000
  | 20 => some 1000000000000000
  | _ => none

/-- The `requiredMilestone` record inside `hireWorker` (0 = no gate). -/
def requiredMilestone : WorkerType → ℕ
  | .apprentice => 0
  | .mechanic => 5
  | .master => 10
  | .brigadier => 15
  | .director => 20

/-- Embeds `calculateUpgradeCost(baseCost, level) = floor(baseCost * 1.15^level)`. -/
def calculateUpgradeCost (baseCost : ℚ) (level : ℕ) : ℚ :=
  (⌊baseCost * COST_MULTIPLIER ^ level⌋ : ℤ)

/-- Embeds `calculateWorkerCost(baseCost, count) = floor(baseCost * 1.15^count)`. -/
def calculateWorkerCost (baseCost : ℚ) (count : ℕ) : ℚ :=
  (⌊baseCost * COST_MULTIPLIER ^ count⌋ : ℤ)

/-- Embeds `calculateClickIncome(level) = level + 1` (simplified formula of this store). -/
def calculateClickIncome (level : ℕ) : ℕ := level + 1

/-- Embeds `calculateWorkSpeedMultiplier(level) = 1.0 + level * 0.1`. -/
def calculateWorkSpeedMultiplier (level : ℕ) : ℚ :=
  1 + (level : ℚ) * WORK_SPEED_BONUS_PER_LEVEL

/-- One upgrade entry (`UpgradeData`). -/
structure UpgradeData where
  level : ℕ
  cost : ℚ
  baseCost : ℚ
deriving DecidableEq, Repr

/-- One worker entry (`WorkerData`). -/
structure WorkerData where
  count : ℕ
  cost : ℚ
deriving DecidableEq, Repr

/-- Embeds `UpgradesState`. -/
structure UpgradesState where
  clickPower : UpgradeData
  workSpeed : UpgradeData
deriving DecidableEq, Repr

/-- Embeds `WorkersState`. -/
structure WorkersState where
  apprentice : WorkerData
  mechanic : WorkerData
  master : WorkerData
  brigadier : WorkerData
  director : WorkerData
deriving DecidableEq, Repr

/-- Dynamic lookup `state.workers[workerType]`. -/
def WorkersState.get (w : WorkersState) : WorkerType → WorkerData
  | .apprentice => w.apprentice
  | .mechanic => w.mechanic
  | .master => w.master
  | .brigadier => w.brigadier
  | .director => w.director

/-- Dynamic update `{ ...workers, [workerType]: d }`. -/
def WorkersState.set (w : WorkersState) : WorkerType → WorkerData → WorkersState
  | .apprentice, d => { w with apprentice := d }
  | .mechanic, d => { w with mechanic := d }
  | .master, d => { w with master := d }
  | .brigadier, d => { w with brigadier := d }
  | .director, d => { w with director := d }

/-- Embeds `calculateTotalPassiveIncome(workers, workSpeedLevel)`:
sum of `count * income` over all worker types, times the speed multiplier,
rounded to two decimals by `parseFloat((..).toFixed(2))`. -/
def calculateTotalPassiveIncome (w : WorkersState) (workSpeedLevel : ℕ) : ℚ :=
  let baseIncome :=
    (w.apprentice.count : ℚ) * WORKER_INCOME .apprentice +
    (w.mechanic.count : ℚ) * WORKER_INCOME .mechanic +
    (w.master.count : ℚ) * WORKER_INCOME .master +
    (w.brigadier.count : ℚ) * WORKER_INCOME .brigadier +
    (w.director.count : ℚ) * WORKER_INCOME .director
  jsToFixed2 (baseIncome * calculateWorkSpeedMultiplier workSpeedLevel)

/-- Body of the `while (newLevel < 20)` loop of `checkAutoLevel`.  The loop
increments `level` on every iteration and exits at 20, so it runs at most
`20 - level` times; that bound is passed as structural fuel (the wrapper below
supplies exactly `20 - currentLevel`, which never runs out before the loop's
own exit conditions). -/
def checkAutoLevelGo (balance : ℚ) (milestonesPurchased : List ℕ) : ℕ → ℕ → ℕ
  | 0, level => level
  | fuel + 1, level =>
    if level < 20 then
      match GARAGE_LEVEL_THRESHOLDS (level + 1) with
      | none => level
      | some nextThreshold =>
        if balance < nextThreshold then level
        else if (level + 1) ∈ MILESTONE_LEVELS ∧ (level + 1) ∉ milestonesPurchased then level
        else checkAutoLevelGo balance milestonesPurchased fuel (level + 1)
    else level

/-- Embeds `checkAutoLevel(balance, currentLevel, milestonesPurchased)`: walk the level
upward one step at a time while the balance clears the next threshold, stopping
before any unpurchased milestone level. -/
def checkAutoLevel (balance : ℚ) (currentLevel : ℕ) (milestonesPurchased : List ℕ) : ℕ :=
  checkAutoLevelGo balance milestonesPurchased (20 - currentLevel) currentLevel

/-- The `GameState` slice of the store (data fields only; the actions are
modelled below as pure state transformers). -/
structure GameState where
  balance : ℚ
  clickValue : ℚ
  totalClicks : ℕ
  garageLevel : ℕ
  milestonesPurchased : List ℕ
  showMilestoneModal : Bool
  pendingMilestoneLevel : Option ℕ
  milestoneModalDismissed : Bool
  passiveIncomePerSecond : ℚ
  upgrades : UpgradesState
  workers : WorkersState
  nuts : ℕ
  totalEarned : ℚ
  sessionCount : ℕ
  lastSessionDate : String
  isLoaded : Bool
  lastOfflineEarnings : ℚ
  lastOfflineTimeAway : ℤ
deriving DecidableEq, Repr

/-- Embeds `initialState`, parameterised by the ISO date string `new Date().toISOString()`
captured at module initialisation. -/
def initialState (startIso : String) : GameState where
  balance := 0
  clickValue := 1
  totalClicks := 0
  garageLevel := 1
  milestonesPurchased := []
  showMilestoneModal := false
  pendingMilestoneLevel := none
  milestoneModalDismissed := false
  passiveIncomePerSecond := 0
  upgrades :=
    { clickPower := { level := 0, cost := BASE_COSTS_clickUpgrade, baseCost := BASE_COSTS_clickUpgrade }
      workSpeed := { level := 0, cost := BASE_COSTS_workSpeed, baseCost := BASE_COSTS_workSpeed } }
  workers :=
    { apprentice := { count := 0, cost := BASE_COSTS_worker .apprentice }
      mechanic := { count := 0, cost := BASE_COSTS_worker .mechanic }
      master := { count := 0, cost := BASE_COSTS_worker .master }
      brigadier := { count := 0, cost := BASE_COSTS_worker .brigadier }
      director := { count := 0, cost := BASE_COSTS_worker .director } }
  nuts := 0
  totalEarned := 0
  sessionCount := 0
  lastSessionDate := startIso
  isLoaded := false
  lastOfflineEarnings := 0
  lastOfflineTimeAway := 0

/-- Embeds `checkForMilestone()`: if no modal is open and none was dismissed, scan the
milestone levels in order; at the first unpurchased one, arm the modal when the
balance has reached its threshold, then stop scanning either way. -/
def checkForMilestone (st : GameState) : GameState :=
  if st.showMilestoneModal || st.milestoneModalDismissed then st
  else
    match MILESTONE_LEVELS.find? (fun l => l ∉ st.milestonesPurchased) with
    | none => st
    | some l =>
      match GARAGE_LEVEL_THRESHOLDS l with
      | none => st
      | some t =>
        if st.balance ≥ t then
          { st with showMilestoneModal := true, pendingMilestoneLevel := some l }
        else st

/-- Embeds `handleClick()`: the Bernoulli critical roll is passed in as `isCritical`.
Credits `clickValue` (doubled on a critical) to `balance` and `totalEarned`,
increments `totalClicks`, re-runs the auto-level walk and the milestone check.
Returns the updated state and the `isCritical` result. -/
def handleClick (isCritical : Bool) (st : GameState) : GameState × Bool :=
  let income := if isCritical then st.clickValue * CRITICAL_CLICK_MULTIPLIER else st.clickValue
  let newBalance := st.balance + income
  let newLevel := checkAutoLevel newBalance st.garageLevel st.milestonesPurchased
  let st1 := { st with
    balance := newBalance
    totalClicks := st.totalClicks + 1
    totalEarned := st.totalEarned + income
    garageLevel := newLevel }
  (checkForMilestone st1, isCritical)

/-- Legacy `purchaseUpgrade(cost, newClickValue)`. -/
def purchaseUpgrade (cost newClickValue : ℚ) (st : GameState) : GameState × Bool :=
  if st.balance < cost then (st, false)
  else ({ st with balance := st.balance - cost, clickValue := newClickValue }, true)

/-- Embeds `purchaseClickUpgrade()`: insufficient funds → `false`, no state change;
otherwise debit the stored cost, bump the level, recompute the click value and
the next cost from `BASE_COSTS.clickUpgrade`. -/
def purchaseClickUpgrade (st : GameState) : GameState × Bool :=
  if st.balance < st.upgrades.clickPower.cost then (st, false)
  else
    let newLevel := st.upgrades.clickPower.level + 1
    let newCost := calculateUpgradeCost BASE_COSTS_clickUpgrade newLevel
    let newClickValue := calculateClickIncome newLevel
    ({ st with
        balance := st.balance - st.upgrades.clickPower.cost
        clickValue := (newClickValue : ℚ)
        upgrades := { st.upgrades with
          clickPower := { st.upgrades.clickPower with level := newLevel, cost := newCost } } },
      true)

/-- Embeds `purchaseWorkSpeedUpgrade()`: gate on milestone 5, then on funds; on success
debit, bump the level, recompute the next cost and the passive income.  The
source returns `void`; the boolean records whether the purchase was applied.
The source rebuilds `workSpeed` as `{ level, cost }` without spreading the old
entry, leaving `baseCost` undefined at runtime; that field is never read
afterwards, so it is carried over here. -/
def purchaseWorkSpeedUpgrade (st : GameState) : GameState × Bool :=
  if 5 ∉ st.milestonesPurchased then (st, false)
  else if st.balance < st.upgrades.workSpeed.cost then (st, false)
  else
    let newLevel := st.upgrades.workSpeed.level + 1
    let newCost := calculateUpgradeCost BASE_COSTS_workSpeed newLevel
    let newPassiveIncome := calculateTotalPassiveIncome st.workers newLevel
    ({ st with
        balance := st.balance - st.upgrades.workSpeed.cost
        passiveIncomePerSecond := newPassiveIncome
        upgrades := { st.upgrades with
          workSpeed := { st.upgrades.workSpeed with level := newLevel, cost := newCost } } },
      true)

/-- Embeds `hireWorker(workerType)`: checks, in order, the hard limit, the milestone
gate and the funds; on success debit the stored cost, increment the count,
recompute that worker's next cost from its base cost and the passive income.
The source returns `void`; the boolean records whether the hire was applied. -/
def hireWorker (workerType : WorkerType) (st : GameState) : GameState × Bool :=
  let worker := st.workers.get workerType
  if worker.count ≥ WORKER_LIMITS workerType then (st, false)
  else if requiredMilestone workerType > 0 ∧ requiredMilestone workerType ∉ st.milestonesPurchased then
    (st, false)
  else if st.balance < worker.cost then (st, false)
  else
    let newCount := worker.count + 1
    let newCost := calculateWorkerCost (BASE_COSTS_worker workerType) newCount
    let workersAfterHire := st.workers.set workerType { count := newCount, cost := newCost }
    let newPassiveIncome := calculateTotalPassiveIncome workersAfterHire st.upgrades.workSpeed.level
    ({ st with
        balance := st.balance - worker.cost
        passiveIncomePerSecond := newPassiveIncome
        workers := workersAfterHire },
      true)

/-- Embeds `purchaseMilestone(level)`: the level must be a defined milestone tier, not
yet purchased, and affordable; on success debit, record the milestone, and
re-run the auto-level walk seeded from `max(garageLevel, level)`. -/
def purchaseMilestone (level : ℕ) (st : GameState) : GameState × Bool :=
  match MILESTONE_UPGRADES_cost level with
  | none => (st, false)
  | some cost =>
    if level ∈ st.milestonesPurchased then (st, false)
    else if st.balance < cost then (st, false)
    else
      let newBalance := st.balance - cost
      let newPurchased := st.milestonesPurchased ++ [level]
      let baseLevel := max st.garageLevel level
      let newLevel := checkAutoLevel newBalance baseLevel newPurchased
      ({ st with
          balance := newBalance
          milestonesPurchased := newPurchased
          garageLevel := newLevel
          showMilestoneModal := false
          pendingMilestoneLevel := none
          milestoneModalDismissed := false },
        true)

/-- One firing of the `startPassiveIncome` interval: no-op when the rate is not
positive, otherwise credit the rate to `balance` and `totalEarned` (both
re-rounded to two decimals), re-run auto-level and the milestone check. -/
def passiveIncomeTick (st : GameState) : GameState :=
  if st.passiveIncomePerSecond ≤ 0 then st
  else
    let newBalance := jsToFixed2 (st.balance + st.passiveIncomePerSecond)
    let newLevel := checkAutoLevel newBalance st.garageLevel st.milestonesPurchased
    checkForMilestone { st with
      balance := newBalance
      totalEarned := jsToFixed2 (st.totalEarned + st.passiveIncomePerSecond)
      garageLevel := newLevel }

/-- Embeds `addOfflineEarnings(amount)`: credit the amount to `balance` and
`totalEarned` (rounded to two decimals), re-run auto-level and the milestone
check. -/
def addOfflineEarnings (amount : ℚ) (st : GameState) : GameState :=
  let newBalance := jsToFixed2 (st.balance + amount)
  let newLevel := checkAutoLevel newBalance st.garageLevel st.milestonesPurchased
  checkForMilestone { st with
    balance := newBalance
    totalEarned := jsToFixed2 (st.totalEarned + amount)
    garageLevel := newLevel }

/-- Embeds `closeMilestoneModal()`. -/
def closeMilestoneModal (st : GameState) : GameState :=
  { st with showMilestoneModal := false, pendingMilestoneLevel := none,
            milestoneModalDismissed := true }

/-- Embeds `resetGame()`: reinitialise to `initialState` with `isLoaded` kept true
(the external `clearSave()` call touches only the storage, not this state). -/
def resetGame (startIso : String) (_st : GameState) : GameState :=
  { initialState startIso with isLoaded := true }

/-- One `{count, cost}` worker entry of the save document. -/
structure SavedEntry where
  count : ℕ
  cost : ℚ
deriving DecidableEq, Repr

/-- One `{level, cost}` upgrade entry of the save document. -/
structure SavedUpgradeEntry where
  level : ℕ
  cost : ℚ
deriving DecidableEq, Repr

/-- The `playerData` section of the save document read by `loadProgress`.
Optional fields model the `?? 0` and `Array.isArray` backward-compat fallbacks
applied to documents written by older versions. -/
structure SavePlayerData where
  balance : ℚ
  nuts : Option ℕ
  totalClicks : ℕ
  garageLevel : ℕ
  milestonesPurchased : Option (List ℕ)
deriving DecidableEq, Repr

/-- The `workers` section of the save document.  `apprentice` is accessed
directly; the other types go through `?.` / `??` fallbacks, and a legacy
`foreman` entry doubles as `brigadier` when the latter is absent. -/
structure SaveWorkers where
  apprentice : SavedEntry
  mechanic : Option SavedEntry
  master : Option SavedEntry
  brigadier : Option SavedEntry
  foreman : Option SavedEntry
  director : Option SavedEntry
deriving DecidableEq, Repr

/-- The `upgrades` section of the save document. -/
structure SaveUpgrades where
  clickPower : SavedUpgradeEntry
  workSpeed : SavedUpgradeEntry
deriving DecidableEq, Repr

/-- The `stats` section of the save document (`?? 0` fallbacks on load). -/
structure SaveStats where
  totalEarned : Option ℚ
  sessionCount : Option ℕ
  lastSessionDate : String
deriving DecidableEq, Repr

/-- The save document consumed by `loadProgress` (the `SaveData` of the storage
service this store imports, with the extended worker and milestone fields). -/
structure SaveData where
  version : ℕ
  timestamp : ℚ
  playerData : SavePlayerData
  upgrades : SaveUpgrades
  workers : SaveWorkers
  stats : SaveStats
deriving DecidableEq, Repr

/-- Modelled from the spec: the three-argument
`calculateOfflineEarnings(ratePerSecond, lastTimestamp, maxHours)` of the
storage service imported by this store is not among the source files (only its
call site in `loadProgress` is).  Per the spec, the amount is
`clamp(now - lastTimestamp, 0, maxHours*3600) * ratePerSecond` rounded to two
decimals, and 0 whenever the rate is not positive, there is no prior timestamp
(the default document stores 0), or the elapsed time is under 60 seconds. -/
def calculateOfflineEarningsSpec (ratePerSecond lastTimestamp maxHours now : ℚ) : ℚ :=
  if ratePerSecond ≤ 0 then 0
  else if lastTimestamp ≤ 0 then 0
  else
    let elapsedSeconds := (now - lastTimestamp) / 1000
    if elapsedSeconds < 60 then 0
    else jsToFixed2 (min elapsedSeconds (maxHours * 3600) * ratePerSecond)

/-- Embeds `loadProgress()`, with the document returned by `loadGame()` and the
current clock passed explicitly.  Restores the milestone list (with the
mechanic-reset and foreman-rename compat rules), recomputes passive income and
the click value, recomputes `garageLevel` from the stored balance via
`checkAutoLevel` seeded at level 1 (the stored `garageLevel` is not used),
credits offline earnings when positive, and ends with a milestone check. -/
def loadProgress (saveData? : Option SaveData) (now : ℚ) (nowIso : String)
    (st : GameState) : GameState :=
  match saveData? with
  | none => { st with isLoaded := true, sessionCount := 1, lastSessionDate := nowIso }
  | some saveData =>
    let restoredPurchased : List ℕ := saveData.playerData.milestonesPurchased.getD []
    let mechanicSaveData := saveData.workers.mechanic
    let shouldResetMechanics : Bool :=
      (match mechanicSaveData with
       | some m => decide (0 < m.count)
       | none => false) && decide (5 ∉ restoredPurchased)
    let savedBrigadier := saveData.workers.brigadier.or saveData.workers.foreman
    let restoredWorkers : WorkersState :=
      { apprentice :=
          { count := saveData.workers.apprentice.count
            cost := saveData.workers.apprentice.cost }
        mechanic :=
          if shouldResetMechanics then
            { count := 0, cost := BASE_COSTS_worker .mechanic }
          else
            { count := (mechanicSaveData.map SavedEntry.count).getD 0
              cost := (mechanicSaveData.map SavedEntry.cost).getD (BASE_COSTS_worker .mechanic) }
        master :=
          { count := (saveData.workers.master.map SavedEntry.count).getD 0
            cost := (saveData.workers.master.map SavedEntry.cost).getD (BASE_COSTS_worker .master) }
        brigadier :=
          { count := (savedBrigadier.map SavedEntry.count).getD 0
            cost := (savedBrigadier.map SavedEntry.cost).getD (BASE_COSTS_worker .brigadier) }
        director :=
          { count := (saveData.workers.director.map SavedEntry.count).getD 0
            cost := (saveData.workers.director.map SavedEntry.cost).getD (BASE_COSTS_worker .director) } }
    let restoredUpgrades : UpgradesState :=
      { clickPower :=
          { level := saveData.upgrades.clickPower.level
            cost := saveData.upgrades.clickPower.cost
            baseCost := BASE_COSTS_clickUpgrade }
        workSpeed :=
          { level := saveData.upgrades.workSpeed.level
            cost := saveData.upgrades.workSpeed.cost
            baseCost := BASE_COSTS_workSpeed } }
    let passiveIncome := calculateTotalPassiveIncome restoredWorkers restoredUpgrades.workSpeed.level
    let offlineEarnings := calculateOfflineEarningsSpec passiveIncome saveData.timestamp 24 now
    let offlineTimeAway : ℤ :=
      if saveData.timestamp > 0 then ⌊(now - saveData.timestamp) / 1000⌋ else 0
    let restoredClickValue := calculateClickIncome restoredUpgrades.clickPower.level
    let autoLevel := checkAutoLevel saveData.playerData.balance 1 restoredPurchased
    let st1 : GameState :=
      { st with
        balance := saveData.playerData.balance
        nuts := saveData.playerData.nuts.getD 0
        totalClicks := saveData.playerData.totalClicks
        garageLevel := autoLevel
        milestonesPurchased := restoredPurchased
        clickValue := (restoredClickValue : ℚ)
        upgrades := restoredUpgrades
        workers := restoredWorkers
        totalEarned := saveData.stats.totalEarned.getD 0
        sessionCount := saveData.stats.sessionCount.getD 0 + 1
        lastSessionDate := nowIso
        passiveIncomePerSecond := passiveIncome
        isLoaded := true
        lastOfflineEarnings := offlineEarnings
        lastOfflineTimeAway := offlineTimeAway }
    let st2 := if 0 < offlineEarnings then addOfflineEarnings offlineEarnings st1 else st1
    checkForMilestone st2

/-- The user-triggered and timer-triggered mutation entry points of the store,
used to quantify over arbitrary action sequences. -/
inductive Act where
  | click (isCritical : Bool)
  | legacyUpgrade (cost newClickValue : ℚ)
  | clickUpgrade
  | workSpeedUpgrade
  | hire (workerType : WorkerType)
  | milestone (level : ℕ)
  | tick
  | offline (amount : ℚ)
  | closeModal
  | milestoneRecheck

/-- Applies one action to the state (dropping the returned flags). -/
def applyAct : Act → GameState → GameState
  | .click c, st => (handleClick c st).1
  | .legacyUpgrade c v, st => (purchaseUpgrade c v st).1
  | .clickUpgrade, st => (purchaseClickUpgrade st).1
  | .workSpeedUpgrade, st => (purchaseWorkSpeedUpgrade st).1
  | .hire t, st => (hireWorker t st).1
  | .milestone l, st => (purchaseMilestone l st).1
  | .tick, st => passiveIncomeTick st
  | .offline q, st => addOfflineEarnings q st
  | .closeModal, st => closeMilestoneModal st
  | .milestoneRecheck, st => checkForMilestone st

/-- Runs a sequence of actions from a state. -/
def runActs (acts : List Act) (st : GameState) : GameState :=
  acts.foldl (fun s a => applyAct a s) st

/-- Cost-growth invariant I6: every stored next-cost field equals
`floor(base * 1.15^n)` where `n` is the item's stored level or count. -/
def costInvariant (st : GameState) : Prop :=
  st.upgrades.clickPower.cost
      = calculateUpgradeCost BASE_COSTS_clickUpgrade st.upgrades.clickPower.level ∧
  st.upgrades.workSpeed.cost
      = calculateUpgradeCost BASE_COSTS_workSpeed st.upgrades.workSpeed.level ∧
  ∀ t : WorkerType,
    (st.workers.get t).cost = calculateWorkerCost (BASE_COSTS_worker t) (st.workers.get t).count

end MStore

namespace TStore

/-- Embeds `CLICK_INCOME_TABLE`: click income per `clickPower` level, indices
0 to 50 (GDD v2.2 control points with geometric interpolation between them). -/
def CLICK_INCOME_TABLE : List ℚ :=
  [1, 2, 3, 4, 5, 7, 9, 12, 16, 21,
   27, 34, 44, 55, 70, 89, 113, 143, 182, 231,
   293, 372, 472, 599, 760, 965, 1225, 1554, 1972, 2503,
   3176, 4014, 5074, 6413, 8106, 10245, 12950, 16368, 20688, 26149,
   33051, 41775, 52803, 66741, 84359, 106627, 134773, 170349, 215316, 272153,
   343993]

/-- Embeds `calculateClickIncome(level)` of the lookup-table store: read the
table below its length, and past it extrapolate geometrically by the ratio of
the last two entries, flooring the result. -/
def calculateClickIncome (level : ℕ) : ℚ :=
  if level < CLICK_INCOME_TABLE.length then CLICK_INCOME_TABLE.getD level 0
  else
    let lastIdx := CLICK_INCOME_TABLE.length - 1
    let ratio := CLICK_INCOME_TABLE.getD lastIdx 0 / CLICK_INCOME_TABLE.getD (lastIdx - 1) 0
    ((⌊CLICK_INCOME_TABLE.getD lastIdx 0 * ratio ^ (level - lastIdx)⌋ : ℤ) : ℚ)

end TStore

namespace StorageService

/-- Embeds `SAVE_VERSION = 1`. -/
def SAVE_VERSION : ℚ := 1

/-- Embeds `MIN_OFFLINE_SECONDS = 60`. -/
def MIN_OFFLINE_SECONDS : ℚ := 60

/-- Embeds `SECONDS_PER_HOUR = 3600`. -/
def SECONDS_PER_HOUR : ℚ := 3600

/-- The `{level, cost}` entries of `SavedUpgrades`. -/
structure SLevelCost where
  level : ℚ
  cost : ℚ
deriving DecidableEq, Repr

/-- Embeds `PlayerData` of the storage service schema. -/
structure SPlayerData where
  balance : ℚ
  nuts : ℚ
  totalClicks : ℚ
  garageLevel : ℚ
deriving DecidableEq, Repr

/-- The `{count, cost}` entries of `SavedWorkers`. -/
structure SWorkerEntry where
  count : ℚ
  cost : ℚ
deriving DecidableEq, Repr

/-- Embeds `SavedUpgrades`. -/
structure SUpgrades where
  clickPower : SLevelCost
  workSpeed : SLevelCost
deriving DecidableEq, Repr

/-- Embeds `SavedWorkers`. -/
structure SWorkers where
  apprentice : SWorkerEntry
  mechanic : SWorkerEntry
deriving DecidableEq, Repr

/-- Embeds `PlayerStats`. -/
structure SStats where
  totalEarned : ℚ
  sessionCount : ℚ
  lastSessionDate : String
deriving DecidableEq, Repr

/-- Embeds `SaveData`, the full persisted document. -/
structure SaveData where
  version : ℚ
  timestamp : ℚ
  playerData : SPlayerData
  upgrades : SUpgrades
  workers : SWorkers
  stats : SStats
deriving DecidableEq, Repr

/-- Partial `{level, cost}` entry: each leaf may be absent. -/
structure PLevelCost where
  level : Option ℚ
  cost : Option ℚ
deriving DecidableEq, Repr

/-- Partial `playerData` section. -/
structure PPlayerData where
  balance : Option ℚ
  nuts : Option ℚ
  totalClicks : Option ℚ
  garageLevel : Option ℚ
deriving DecidableEq, Repr

/-- Partial `{count, cost}` worker entry. -/
structure PWorkerEntry where
  count : Option ℚ
  cost : Option ℚ
deriving DecidableEq, Repr

/-- Partial `upgrades` section. -/
structure PUpgrades where
  clickPower : Option PLevelCost
  workSpeed : Option PLevelCost
deriving DecidableEq, Repr

/-- Partial `workers` section. -/
structure PWorkers where
  apprentice : Option PWorkerEntry
  mechanic : Option PWorkerEntry
deriving DecidableEq, Repr

/-- Partial `stats` section. -/
structure PStats where
  totalEarned : Option ℚ
  sessionCount : Option ℚ
  lastSessionDate : Option String
deriving DecidableEq, Repr

/-- Embeds `Partial<SaveData>`: the JSON object given to `saveGame` or parsed
from the stored blob, in which any field (at either nesting level) may be
absent.  An absent field is the `undefined` that `deepMerge` skips. -/
structure PSaveData where
  version : Option ℚ
  timestamp : Option ℚ
  playerData : Option PPlayerData
  upgrades : Option PUpgrades
  workers : Option PWorkers
  stats : Option PStats
deriving DecidableEq, Repr

/-- Embeds `deepMerge` at the `{level, cost}` entries: a present primitive in
the source overwrites the target, an absent one keeps the target. -/
def mergeLevelCost (t : SLevelCost) (s : PLevelCost) : SLevelCost :=
  { level := s.level.getD t.level, cost := s.cost.getD t.cost }

/-- Embeds `deepMerge` at the `playerData` section. -/
def mergePlayerData (t : SPlayerData) (s : PPlayerData) : SPlayerData :=
  { balance := s.balance.getD t.balance
    nuts := s.nuts.getD t.nuts
    totalClicks := s.totalClicks.getD t.totalClicks
    garageLevel := s.garageLevel.getD t.garageLevel }

/-- Embeds `deepMerge` at the `{count, cost}` worker entries. -/
def mergeWorkerEntry (t : SWorkerEntry) (s : PWorkerEntry) : SWorkerEntry :=
  { count := s.count.getD t.count, cost := s.cost.getD t.cost }

/-- Embeds `deepMerge` at the `upgrades` section: both sides are objects, so a
present source section is merged recursively and an absent one keeps the
target section. -/
def mergeUpgrades (t : SUpgrades) (s : PUpgrades) : SUpgrades :=
  { clickPower :=
      match s.clickPower with
      | none => t.clickPower
      | some p => mergeLevelCost t.clickPower p
    workSpeed :=
      match s.workSpeed with
      | none => t.workSpeed
      | some p => mergeLevelCost t.workSpeed p }

/-- Embeds `deepMerge` at the `workers` section. -/
def mergeWorkers (t : SWorkers) (s : PWorkers) : SWorkers :=
  { apprentice :=
      match s.apprentice with
      | none => t.apprentice
      | some p => mergeWorkerEntry t.apprentice p
    mechanic :=
      match s.mechanic with
      | none => t.mechanic
      | some p => mergeWorkerEntry t.mechanic p }

/-- Embeds `deepMerge` at the `stats` section. -/
def mergeStats (t : SStats) (s : PStats) : SStats :=
  { totalEarned := s.totalEarned.getD t.totalEarned
    sessionCount := s.sessionCount.getD t.sessionCount
    lastSessionDate := s.lastSessionDate.getD t.lastSessionDate }

/-- Embeds `deepMerge(target, source)` at the document root: primitives are
overwritten when present, nested objects are merged recursively. -/
def deepMerge (t : SaveData) (s : PSaveData) : SaveData :=
  { version := s.version.getD t.version
    timestamp := s.timestamp.getD t.timestamp
    playerData :=
      match s.playerData with
      | none => t.playerData
      | some p => mergePlayerData t.playerData p
    upgrades :=
      match s.upgrades with
      | none => t.upgrades
      | some p => mergeUpgrades t.upgrades p
    workers :=
      match s.workers with
      | none => t.workers
      | some p => mergeWorkers t.workers p
    stats :=
      match s.stats with
      | none => t.stats
      | some p => mergeStats t.stats p }

/-- Embeds `DEFAULT_SAVE_DATA`. -/
def DEFAULT_SAVE_DATA : SaveData :=
  { version := SAVE_VERSION
    timestamp := 0
    playerData := { balance := 0, nuts := 0, totalClicks := 0, garageLevel := 1 }
    upgrades :=
      { clickPower := { level := 0, cost := 100 }
        workSpeed := { level := 0, cost := 500 } }
    workers :=
      { apprentice := { count := 0, cost := 500 }
        mechanic := { count := 0, cost := 5000 } }
    stats := { totalEarned := 0, sessionCount := 0, lastSessionDate := "" } }

/-- Embeds `isValidSaveData`: shallow structural validation of a parsed blob —
the required top-level fields and key nested fields must be present (the
`nuts` leaf and the upgrade and worker leaves are not checked). -/
def isValidSaveData (p : PSaveData) : Bool :=
  p.version.isSome && p.timestamp.isSome &&
  (match p.playerData with
   | none => false
   | some pd => pd.balance.isSome && pd.totalClicks.isSome && pd.garageLevel.isSome) &&
  (match p.upgrades with
   | none => false
   | some u => u.clickPower.isSome && u.workSpeed.isSome) &&
  (match p.workers with
   | none => false
   | some w => w.apprentice.isSome && w.mechanic.isSome) &&
  p.stats.isSome

/-- Serialisation of a full document back into the stored-blob shape: every
field present (this is what `JSON.stringify` of a full `SaveData` preserves). -/
def toPartial (d : SaveData) : PSaveData :=
  { version := some d.version
    timestamp := some d.timestamp
    playerData := some
      { balance := some d.playerData.balance
        nuts := some d.playerData.nuts
        totalClicks := some d.playerData.totalClicks
        garageLevel := some d.playerData.garageLevel }
    upgrades := some
      { clickPower := some
          { level := some d.upgrades.clickPower.level, cost := some d.upgrades.clickPower.cost }
        workSpeed := some
          { level := some d.upgrades.workSpeed.level, cost := some d.upgrades.workSpeed.cost } }
    workers := some
      { apprentice := some
          { count := some d.workers.apprentice.count, cost := some d.workers.apprentice.cost }
        mechanic := some
          { count := some d.workers.mechanic.count, cost := some d.workers.mechanic.cost } }
    stats := some
      { totalEarned := some d.stats.totalEarned
        sessionCount := some d.stats.sessionCount
        lastSessionDate := some d.stats.lastSessionDate } }

/-- The local storage slot under `STORAGE_KEY`: either empty or holding one
parsed blob. -/
def Storage : Type := Option PSaveData

/-- Embeds `loadGame()`: nothing stored gives `null`; a stored blob is
validated and, when valid, merged over the defaults to backfill absent fields. -/
def loadGame (storage : Storage) : Option SaveData :=
  match storage with
  | none => none
  | some p => if isValidSaveData p then some (deepMerge DEFAULT_SAVE_DATA p) else none

/-- Embeds `saveGame(data)`: merge the given partial fields over the currently
stored document (or the defaults), stamp `version` and `timestamp = Date.now()`
and store the result.  The storage write itself is assumed to succeed, so the
result flag is true. -/
def saveGame (storage : Storage) (data : PSaveData) (now : ℚ) : Storage × Bool :=
  let existing := (loadGame storage).getD DEFAULT_SAVE_DATA
  let merged := deepMerge existing data
  let merged := { merged with version := SAVE_VERSION, timestamp := now }
  (some (toPartial merged), true)

/-- Embeds the two-argument `calculateOfflineEarnings(passiveIncomePerSec,
maxOfflineHours)`, with the `getLastSaveTime()` lookup and `Date.now()` passed
explicitly: zero on a non-positive rate, a missing or zero timestamp, or an
elapsed time under the 60-second floor; otherwise the elapsed seconds, capped
at `maxOfflineHours` hours, times the rate, rounded to two decimals. -/
def calculateOfflineEarnings (passiveIncomePerSec maxOfflineHours : ℚ)
    (lastTimestamp : Option ℚ) (now : ℚ) : ℚ :=
  if passiveIncomePerSec ≤ 0 then 0
  else
    match lastTimestamp with
    | none => 0
    | some ts =>
      if ts = 0 then 0
      else
        let elapsedSeconds := (now - ts) / 1000
        if elapsedSeconds < MIN_OFFLINE_SECONDS then 0
        else
          let maxSeconds := maxOfflineHours * SECONDS_PER_HOUR
          let clampedSeconds := min elapsedSeconds maxSeconds
          jsToFixed2 (clampedSeconds * passiveIncomePerSec)

/-- States that a loaded document `d` agrees with the partial document `p` on
every field that `p` actually supplied (round-trip restoration; `version` and
`timestamp` are stamped by `saveGame` itself and are accounted separately). -/
def restoresGiven (p : PSaveData) (d : SaveData) : Prop :=
  (∀ pd, p.playerData = some pd →
    (∀ v, pd.balance = some v → d.playerData.balance = v) ∧
    (∀ v, pd.nuts = some v → d.playerData.nuts = v) ∧
    (∀ v, pd.totalClicks = some v → d.playerData.totalClicks = v) ∧
    (∀ v, pd.garageLevel = some v → d.playerData.garageLevel = v)) ∧
  (∀ u, p.upgrades = some u →
    (∀ lc, u.clickPower = some lc →
      (∀ v, lc.level = some v → d.upgrades.clickPower.level = v) ∧
      (∀ v, lc.cost = some v → d.upgrades.clickPower.cost = v)) ∧
    (∀ lc, u.workSpeed = some lc →
      (∀ v, lc.level = some v → d.upgrades.workSpeed.level = v) ∧
      (∀ v, lc.cost = some v → d.upgrades.workSpeed.cost = v))) ∧
  (∀ w, p.workers = some w →
    (∀ e, w.apprentice = some e →
      (∀ v, e.count = some v → d.workers.apprentice.count = v) ∧
      (∀ v, e.cost = some v → d.workers.apprentice.cost = v)) ∧
    (∀ e, w.mechanic = some e →
      (∀ v, e.count = some v → d.workers.mechanic.count = v) ∧
      (∀ v, e.cost = some v → d.workers.mechanic.cost = v))) ∧
  (∀ s, p.stats = some s →
    (∀ v, s.totalEarned = some v → d.stats.totalEarned = v) ∧
    (∀ v, s.sessionCount = some v → d.stats.sessionCount = v) ∧
    (∀ v, s.lastSessionDate = some v → d.stats.lastSessionDate = v))

/-- States that a loaded document `d` falls back to `DEFAULT_SAVE_DATA` on
every section or leaf that the partial document `p` left absent. -/
def backfillsDefault (p : PSaveData) (d : SaveData) : Prop :=
  (p.playerData = none → d.playerData = DEFAULT_SAVE_DATA.playerData) ∧
  (∀ pd, p.playerData = some pd →
    (pd.balance = none → d.playerData.balance = DEFAULT_SAVE_DATA.playerData.balance) ∧
    (pd.nuts = none → d.playerData.nuts = DEFAULT_SAVE_DATA.playerData.nuts) ∧
    (pd.totalClicks = none → d.playerData.totalClicks = DEFAULT_SAVE_DATA.playerData.totalClicks) ∧
    (pd.garageLevel = none → d.playerData.garageLevel = DEFAULT_SAVE_DATA.playerData.garageLevel)) ∧
  (p.upgrades = none → d.upgrades = DEFAULT_SAVE_DATA.upgrades) ∧
  (∀ u, p.upgrades = some u →
    (u.clickPower = none → d.upgrades.clickPower = DEFAULT_SAVE_DATA.upgrades.clickPower) ∧
    (u.workSpeed = none → d.upgrades.workSpeed = DEFAULT_SAVE_DATA.upgrades.workSpeed)) ∧
  (p.workers = none → d.workers = DEFAULT_SAVE_DATA.workers) ∧
  (∀ w, p.workers = some w →
    (w.apprentice = none → d.workers.apprentice = DEFAULT_SAVE_DATA.workers.apprentice) ∧
    (w.mechanic = none → d.workers.mechanic = DEFAULT_SAVE_DATA.workers.mechanic)) ∧
  (p.stats = none → d.stats = DEFAULT_SAVE_DATA.stats) ∧
  (∀ s, p.stats = some s →
    (s.totalEarned = none → d.stats.totalEarned = DEFAULT_SAVE_DATA.stats.totalEarned) ∧
    (s.sessionCount = none → d.stats.sessionCount = DEFAULT_SAVE_DATA.stats.sessionCount) ∧
    (s.lastSessionDate = none → d.stats.lastSessionDate = DEFAULT_SAVE_DATA.stats.lastSessionDate))

end StorageService

namespace MStore

theorem thresholds_isSome_of_lt :
    ∀ n, n < 21 → 1 ≤ n → (GARAGE_LEVEL_THRESHOLDS n).isSome := by decide

theorem checkAutoLevelGo_stop (b : ℚ) (M : List ℕ) :
    ∀ fuel level, 20 ≤ level → checkAutoLevelGo b M fuel level = level := by
  intro fuel
  cases fuel with
  | zero => intro level _; rfl
  | succ fuel =>
    intro level h
    unfold checkAutoLevelGo
    rw [if_neg (by omega)]

theorem checkAutoLevelGo_le (b : ℚ) (M : List ℕ) :
    ∀ fuel level, level ≤ checkAutoLevelGo b M fuel level := by
  intro fuel
  induction fuel with
  | zero => intro level; exact le_rfl
  | succ fuel ih =>
    intro level
    unfold checkAutoLevelGo
    split
    · split
      · exact le_rfl
      · split_ifs
        · exact le_rfl
        · exact le_rfl
        · exact le_trans (Nat.le_succ level) (ih (level + 1))
    · exact le_rfl

theorem checkAutoLevel_le (b : ℚ) (level : ℕ) (M : List ℕ) :
    level ≤ checkAutoLevel b level M :=
  checkAutoLevelGo_le b M _ level

theorem checkAutoLevelGo_char (b : ℚ) (M : List ℕ) :
    ∀ fuel level, 20 ≤ level + fuel →
      (∀ k, level < k → k ≤ checkAutoLevelGo b M fuel level →
        ∃ t, GARAGE_LEVEL_THRESHOLDS k = some t ∧ t ≤ b ∧
             (k ∈ MILESTONE_LEVELS → k ∈ M)) ∧
      (checkAutoLevelGo b M fuel level < 20 →
        ∀ t, GARAGE_LEVEL_THRESHOLDS (checkAutoLevelGo b M fuel level + 1) = some t →
          b < t ∨ ((checkAutoLevelGo b M fuel level + 1) ∈ MILESTONE_LEVELS ∧
                   (checkAutoLevelGo b M fuel level + 1) ∉ M)) := by
  intro fuel
  induction fuel with
  | zero =>
    intro level hl
    simp only [checkAutoLevelGo]
    exact ⟨fun k h1 h2 => absurd (lt_of_lt_of_le h1 h2) (lt_irrefl level), fun h => absurd h (by omega)⟩
  | succ fuel ih =>
    intro level hl
    by_cases h20 : level < 20
    · cases hthr : GARAGE_LEVEL_THRESHOLDS (level + 1) with
      | none =>
        exfalso
        have hs := thresholds_isSome_of_lt (level + 1) (by omega) (by omega)
        rw [hthr] at hs
        exact Bool.noConfusion hs
      | some t =>
        have hGo : checkAutoLevelGo b M (fuel + 1) level =
            if b < t then level
            else if (level + 1) ∈ MILESTONE_LEVELS ∧ (level + 1) ∉ M then level
            else checkAutoLevelGo b M fuel (level + 1) := by
          conv_lhs => unfold checkAutoLevelGo
          rw [if_pos h20, hthr]
        by_cases hb : b < t
        · rw [hGo, if_pos hb]
          refine ⟨fun k h1 h2 => absurd (lt_of_lt_of_le h1 h2) (lt_irrefl level), ?_⟩
          intro _ t2 ht2
          rw [hthr] at ht2
          exact Or.inl (Option.some.inj ht2 ▸ hb)
        · by_cases hm : (level + 1) ∈ MILESTONE_LEVELS ∧ (level + 1) ∉ M
          · rw [hGo, if_neg hb, if_pos hm]
            refine ⟨fun k h1 h2 => absurd (lt_of_lt_of_le h1 h2) (lt_irrefl level), ?_⟩
            intro _ t2 _
            exact Or.inr hm
          · rw [hGo, if_neg hb, if_neg hm]
            obtain ⟨ih1, ih2⟩ := ih (level + 1) (by omega)
            refine ⟨?_, ih2⟩
            intro k h1 h2
            by_cases hk : k = level + 1
            · subst hk
              refine ⟨t, hthr, not_lt.mp hb, fun hms => ?_⟩
              by_contra hnot
              exact hm ⟨hms, hnot⟩
            · exact ih1 k (by omega) h2
    · have hGo : checkAutoLevelGo b M (fuel + 1) level = level := by
        unfold checkAutoLevelGo
        rw [if_neg h20]
      rw [hGo]
      exact ⟨fun k h1 h2 => absurd (lt_of_lt_of_le h1 h2) (lt_irrefl level),
             fun h => absurd h h20⟩

theorem checkAutoLevel_step (b : ℚ) (M : List ℕ) (level : ℕ) :
    checkAutoLevel b level M =
      if level < 20 then
        match GARAGE_LEVEL_THRESHOLDS (level + 1) with
        | none => level
        | some t =>
          if b < t then level
          else if (level + 1) ∈ MILESTONE_LEVELS ∧ (level + 1) ∉ M then level
          else checkAutoLevel b (level + 1) M
      else level := by
  by_cases h : level < 20
  · rw [if_pos h]
    unfold checkAutoLevel
    have hf : 20 - level = (20 - (level + 1)) + 1 := by omega
    rw [hf]
    conv_lhs => unfold checkAutoLevelGo
    rw [if_pos h]
  · rw [if_neg h]
    unfold checkAutoLevel
    exact checkAutoLevelGo_stop b M _ level (by omega)

theorem checkAutoLevelGo_absorb (b b2 : ℚ) (M : List ℕ) (hbb : b ≤ b2) :
    ∀ fuel level, 20 ≤ level + fuel →
      checkAutoLevel b2 (checkAutoLevelGo b M fuel level) M = checkAutoLevel b2 level M := by
  intro fuel
  induction fuel with
  | zero => intro level _; rfl
  | succ fuel ih =>
    intro level hl
    by_cases h20 : level < 20
    · cases hthr : GARAGE_LEVEL_THRESHOLDS (level + 1) with
      | none =>
        exfalso
        have hs := thresholds_isSome_of_lt (level + 1) (by omega) (by omega)
        rw [hthr] at hs
        exact Bool.noConfusion hs
      | some t =>
        have hGo : checkAutoLevelGo b M (fuel + 1) level =
            if b < t then level
            else if (level + 1) ∈ MILESTONE_LEVELS ∧ (level + 1) ∉ M then level
            else checkAutoLevelGo b M fuel (level + 1) := by
          conv_lhs => unfold checkAutoLevelGo
          rw [if_pos h20, hthr]
        by_cases hb : b < t
        · rw [hGo, if_pos hb]
        · by_cases hm : (level + 1) ∈ MILESTONE_LEVELS ∧ (level + 1) ∉ M
          · rw [hGo, if_neg hb, if_pos hm]
          · rw [hGo, if_neg hb, if_neg hm, ih (level + 1) (by omega)]
            rw [checkAutoLevel_step b2 M level, if_pos h20]
            simp only [hthr]
            rw [if_neg (not_lt.mpr (le_trans (not_lt.mp hb) hbb)), if_neg hm]
    · have hGo : checkAutoLevelGo b M (fuel + 1) level = level := by
        unfold checkAutoLevelGo
        rw [if_neg h20]
      rw [hGo]

theorem checkAutoLevel_absorb (b b2 : ℚ) (L : ℕ) (M : List ℕ) (hbb : b ≤ b2) :
    checkAutoLevel b2 (checkAutoLevel b L M) M = checkAutoLevel b2 L M :=
  checkAutoLevelGo_absorb b b2 M hbb (20 - L) L (by omega)

end MStore

/-- C1: `checkAutoLevel(b, L, M)` walks the level upward one step at a time
while the balance clears the next threshold — every level it passes through has
its threshold at or below the balance and, if it is a milestone level, lies in
`M` — and it halts immediately before any threshold whose level is an
unpurchased milestone (when it halts below 20, either the next threshold
exceeds the balance or the next level is a milestone not in `M`).  In
particular, with balance 1 000 000 and no milestones purchased it returns 4
even though the balance equals the level-5 threshold. -/
theorem C1_checkAutoLevel_milestone_walk :
    (∀ (b : ℚ) (L : ℕ) (M : List ℕ),
      L ≤ MStore.checkAutoLevel b L M ∧
      (∀ k, L < k → k ≤ MStore.checkAutoLevel b L M →
        ∃ t, MStore.GARAGE_LEVEL_THRESHOLDS k = some t ∧ t ≤ b ∧
             (k ∈ MStore.MILESTONE_LEVELS → k ∈ M)) ∧
      (MStore.checkAutoLevel b L M < 20 →
        ∀ t, MStore.GARAGE_LEVEL_THRESHOLDS (MStore.checkAutoLevel b L M + 1) = some t →
          b < t ∨ ((MStore.checkAutoLevel b L M + 1) ∈ MStore.MILESTONE_LEVELS ∧
                   (MStore.checkAutoLevel b L M + 1) ∉ M))) ∧
    MStore.checkAutoLevel 1000000 1 [] = 4 := by
  constructor
  · intro b L M
    have h := MStore.checkAutoLevelGo_char b M (20 - L) L (by omega)
    exact ⟨MStore.checkAutoLevel_le b L M, h.1, h.2⟩
  · decide

/-- Witness for C1: instantiating the halting clause at balance 1 000 000,
start level 1 and no milestones shows the walk stopped at 4 because level 5 is
an unpurchased milestone (its threshold is cleared, so the left disjunct is
false). -/
theorem C1_checkAutoLevel_milestone_walk_witness :
    (1000000 : ℚ) < 1000000 ∨
      ((5 : ℕ) ∈ MStore.MILESTONE_LEVELS ∧ (5 : ℕ) ∉ ([] : List ℕ)) := by
  have h := (C1_checkAutoLevel_milestone_walk.1 1000000 1 []).2.2
  rw [C1_checkAutoLevel_milestone_walk.2] at h
  exact h (by omega) 1000000 (by decide)

namespace MStore

theorem checkForMilestone_balance (st : GameState) :
    (checkForMilestone st).balance = st.balance := by
  unfold checkForMilestone
  repeat' split
  all_goals rfl

theorem checkForMilestone_garageLevel (st : GameState) :
    (checkForMilestone st).garageLevel = st.garageLevel := by
  unfold checkForMilestone
  repeat' split
  all_goals rfl

theorem checkForMilestone_milestonesPurchased (st : GameState) :
    (checkForMilestone st).milestonesPurchased = st.milestonesPurchased := by
  unfold checkForMilestone
  repeat' split
  all_goals rfl

theorem checkForMilestone_totalClicks (st : GameState) :
    (checkForMilestone st).totalClicks = st.totalClicks := by
  unfold checkForMilestone
  repeat' split
  all_goals rfl

theorem checkForMilestone_totalEarned (st : GameState) :
    (checkForMilestone st).totalEarned = st.totalEarned := by
  unfold checkForMilestone
  repeat' split
  all_goals rfl

theorem checkForMilestone_clickValue (st : GameState) :
    (checkForMilestone st).clickValue = st.clickValue := by
  unfold checkForMilestone
  repeat' split
  all_goals rfl

theorem checkForMilestone_upgrades (st : GameState) :
    (checkForMilestone st).upgrades = st.upgrades := by
  unfold checkForMilestone
  repeat' split
  all_goals rfl

theorem checkForMilestone_workers (st : GameState) :
    (checkForMilestone st).workers = st.workers := by
  unfold checkForMilestone
  repeat' split
  all_goals rfl

theorem checkForMilestone_passiveIncome (st : GameState) :
    (checkForMilestone st).passiveIncomePerSecond = st.passiveIncomePerSecond := by
  unfold checkForMilestone
  repeat' split
  all_goals rfl

theorem get_set_same (w : WorkersState) (t : WorkerType) (d : WorkerData) :
    (w.set t d).get t = d := by
  cases t <;> rfl

theorem get_set_ne (w : WorkersState) (a t : WorkerType) (d : WorkerData) (h : t ≠ a) :
    (w.set a d).get t = w.get t := by
  cases a <;> cases t <;> first | rfl | exact absurd rfl h

end MStore

/-- C9: `handleClick()` always succeeds (it returns the critical flag it was
given), credits `clickValue` times 2 on a critical and times 1 otherwise to
both `balance` and `totalEarned`, increments `totalClicks` by exactly one, and
never moves `garageLevel` downward.  From the fresh game (click value 1) with
the critical roll false, one click yields balance 1 and one total click. -/
theorem C9_handleClick (st : MStore.GameState) (crit : Bool) :
    (MStore.handleClick crit st).2 = crit ∧
    (MStore.handleClick crit st).1.balance
      = st.balance + st.clickValue * (if crit then 2 else 1) ∧
    (MStore.handleClick crit st).1.totalEarned
      = st.totalEarned + st.clickValue * (if crit then 2 else 1) ∧
    (MStore.handleClick crit st).1.totalClicks = st.totalClicks + 1 ∧
    st.garageLevel ≤ (MStore.handleClick crit st).1.garageLevel ∧
    (MStore.handleClick false (MStore.initialState "")).1.balance = 1 ∧
    (MStore.handleClick false (MStore.initialState "")).1.totalClicks = 1 := by
  have hb : (MStore.handleClick false (MStore.initialState "")).1.balance
      = (MStore.initialState "").balance + (MStore.initialState "").clickValue :=
    MStore.checkForMilestone_balance _
  have ht : (MStore.handleClick false (MStore.initialState "")).1.totalClicks
      = (MStore.initialState "").totalClicks + 1 :=
    MStore.checkForMilestone_totalClicks _
  refine ⟨rfl, ?_, ?_, ?_, ?_, by rw [hb]; norm_num [MStore.initialState],
          by rw [ht]; rfl⟩
  · rw [show (MStore.handleClick crit st).1.balance
        = st.balance + (if crit then st.clickValue * MStore.CRITICAL_CLICK_MULTIPLIER else st.clickValue)
      from MStore.checkForMilestone_balance _]
    cases crit
    · simp
    · norm_num [MStore.CRITICAL_CLICK_MULTIPLIER]
  · rw [show (MStore.handleClick crit st).1.totalEarned
        = st.totalEarned + (if crit then st.clickValue * MStore.CRITICAL_CLICK_MULTIPLIER else st.clickValue)
      from MStore.checkForMilestone_totalEarned _]
    cases crit
    · simp
    · norm_num [MStore.CRITICAL_CLICK_MULTIPLIER]
  · exact MStore.checkForMilestone_totalClicks _
  · rw [show (MStore.handleClick crit st).1.garageLevel
        = MStore.checkAutoLevel
            (st.balance + (if crit then st.clickValue * MStore.CRITICAL_CLICK_MULTIPLIER else st.clickValue))
            st.garageLevel st.milestonesPurchased
      from MStore.checkForMilestone_garageLevel _]
    exact MStore.checkAutoLevel_le _ _ _

/-- C2: `purchaseWorkSpeedUpgrade()` fails with no state change whenever
milestone 5 is not purchased, and `hireWorker` for every gated type (every
type except `apprentice`) fails with no state change whenever its required
milestone is not purchased — in both cases regardless of the balance. -/
theorem C2_milestone_gates (st : MStore.GameState) :
    (5 ∉ st.milestonesPurchased → MStore.purchaseWorkSpeedUpgrade st = (st, false)) ∧
    (∀ t : MStore.WorkerType, t ≠ .apprentice →
      MStore.requiredMilestone t ∉ st.milestonesPurchased →
      MStore.hireWorker t st = (st, false)) := by
  constructor
  · intro h
    unfold MStore.purchaseWorkSpeedUpgrade
    rw [if_pos h]
  · intro t ht h
    have hpos : 0 < MStore.requiredMilestone t := by
      cases t
      · exact absurd rfl ht
      all_goals decide
    by_cases hcap : MStore.WORKER_LIMITS t ≤ (st.workers.get t).count
    · simp only [MStore.hireWorker]
      rw [if_pos hcap]
    · simp only [MStore.hireWorker]
      rw [if_neg hcap, if_pos ⟨hpos, h⟩]

/-- Witness for C2: with a large balance and no milestones purchased, buying
the work-speed upgrade and hiring a mechanic both fail and leave the state
unchanged. -/
theorem C2_milestone_gates_witness :
    MStore.purchaseWorkSpeedUpgrade
        { MStore.initialState "" with balance := 1000000000 }
      = ({ MStore.initialState "" with balance := 1000000000 }, false) ∧
    MStore.hireWorker .mechanic { MStore.initialState "" with balance := 1000000000 }
      = ({ MStore.initialState "" with balance := 1000000000 }, false) :=
  ⟨(C2_milestone_gates _).1 (by decide),
   (C2_milestone_gates _).2 .mechanic (by decide) (by decide)⟩

/-- C3: every purchase or hire action checks its cost against the balance
first — when the balance is short the action returns failure and the whole
state is unchanged — and consequently none of these actions can drive a
non-negative balance below zero. -/
theorem C3_spend_safety (st : MStore.GameState) :
    (st.balance < st.upgrades.clickPower.cost →
      MStore.purchaseClickUpgrade st = (st, false)) ∧
    (st.balance < st.upgrades.workSpeed.cost →
      MStore.purchaseWorkSpeedUpgrade st = (st, false)) ∧
    (∀ t, st.balance < (st.workers.get t).cost → MStore.hireWorker t st = (st, false)) ∧
    (∀ l c, MStore.MILESTONE_UPGRADES_cost l = some c → st.balance < c →
      MStore.purchaseMilestone l st = (st, false)) ∧
    (0 ≤ st.balance →
      0 ≤ (MStore.purchaseClickUpgrade st).1.balance ∧
      0 ≤ (MStore.purchaseWorkSpeedUpgrade st).1.balance ∧
      (∀ t, 0 ≤ (MStore.hireWorker t st).1.balance) ∧
      (∀ l, 0 ≤ (MStore.purchaseMilestone l st).1.balance)) := by
  refine ⟨?_, ?_, ?_, ?_, ?_⟩
  · intro h
    simp only [MStore.purchaseClickUpgrade]
    rw [if_pos h]
  · intro h
    by_cases hm : 5 ∉ st.milestonesPurchased
    · simp only [MStore.purchaseWorkSpeedUpgrade]
      rw [if_pos hm]
    · simp only [MStore.purchaseWorkSpeedUpgrade]
      rw [if_neg hm, if_pos h]
  · intro t h
    by_cases hcap : MStore.WORKER_LIMITS t ≤ (st.workers.get t).count
    · simp only [MStore.hireWorker]
      rw [if_pos hcap]
    · by_cases hgate : 0 < MStore.requiredMilestone t ∧
          MStore.requiredMilestone t ∉ st.milestonesPurchased
      · simp only [MStore.hireWorker]
        rw [if_neg hcap, if_pos hgate]
      · simp only [MStore.hireWorker]
        rw [if_neg hcap, if_neg hgate, if_pos h]
  · intro l c hc h
    simp only [MStore.purchaseMilestone, hc]
    by_cases hp : l ∈ st.milestonesPurchased
    · rw [if_pos hp]
    · rw [if_neg hp, if_pos h]
  · intro h0
    refine ⟨?_, ?_, ?_, ?_⟩
    · by_cases hb : st.balance < st.upgrades.clickPower.cost
      · simp only [MStore.purchaseClickUpgrade]
        rw [if_pos hb]
        exact h0
      · simp only [MStore.purchaseClickUpgrade]
        rw [if_neg hb]
        exact sub_nonneg.mpr (not_lt.mp hb)
    · by_cases hm : 5 ∉ st.milestonesPurchased
      · simp only [MStore.purchaseWorkSpeedUpgrade]
        rw [if_pos hm]
        exact h0
      · by_cases hb : st.balance < st.upgrades.workSpeed.cost
        · simp only [MStore.purchaseWorkSpeedUpgrade]
          rw [if_neg hm, if_pos hb]
          exact h0
        · simp only [MStore.purchaseWorkSpeedUpgrade]
          rw [if_neg hm, if_neg hb]
          exact sub_nonneg.mpr (not_lt.mp hb)
    · intro t
      by_cases hcap : MStore.WORKER_LIMITS t ≤ (st.workers.get t).count
      · simp only [MStore.hireWorker]
        rw [if_pos hcap]
        exact h0
      · by_cases hgate : 0 < MStore.requiredMilestone t ∧
            MStore.requiredMilestone t ∉ st.milestonesPurchased
        · simp only [MStore.hireWorker]
          rw [if_neg hcap, if_pos hgate]
          exact h0
        · by_cases hb : st.balance < (st.workers.get t).cost
          · simp only [MStore.hireWorker]
            rw [if_neg hcap, if_neg hgate, if_pos hb]
            exact h0
          · simp only [MStore.hireWorker]
            rw [if_neg hcap, if_neg hgate, if_neg hb]
            exact sub_nonneg.mpr (not_lt.mp hb)
    · intro l
      cases hc : MStore.MILESTONE_UPGRADES_cost l with
      | none =>
        simp only [MStore.purchaseMilestone, hc]
        exact h0
      | some c =>
        by_cases hp : l ∈ st.milestonesPurchased
        · simp only [MStore.purchaseMilestone, hc]
          rw [if_pos hp]
          exact h0
        · by_cases hb : st.balance < c
          · simp only [MStore.purchaseMilestone, hc]
            rw [if_neg hp, if_pos hb]
            exact h0
          · simp only [MStore.purchaseMilestone, hc]
            rw [if_neg hp, if_neg hb]
            exact sub_nonneg.mpr (not_lt.mp hb)

/-- Witness for C3: with balance 50 (below the 100-ruble first click-upgrade
cost) the upgrade fails, the state is unchanged, and the balance stays
non-negative. -/
theorem C3_spend_safety_witness :
    MStore.purchaseClickUpgrade { MStore.initialState "" with balance := 50 }
      = ({ MStore.initialState "" with balance := 50 }, false) ∧
    (0 : ℚ) ≤ (MStore.purchaseClickUpgrade
      { MStore.initialState "" with balance := 50 }).1.balance :=
  ⟨(C3_spend_safety _).1 (by decide),
   ((C3_spend_safety _).2.2.2.2 (by decide)).1⟩

namespace MStore

theorem hireWorker_success_workers (st : GameState) (a : WorkerType)
    (hcap : ¬ WORKER_LIMITS a ≤ (st.workers.get a).count)
    (hgate : ¬ (0 < requiredMilestone a ∧ requiredMilestone a ∉ st.milestonesPurchased))
    (hb : ¬ st.balance < (st.workers.get a).cost) :
    (hireWorker a st).1.workers
      = st.workers.set a
          { count := (st.workers.get a).count + 1
            cost := calculateWorkerCost (BASE_COSTS_worker a) ((st.workers.get a).count + 1) } := by
  simp only [hireWorker]
  rw [if_neg hcap, if_neg hgate, if_neg hb]

theorem hireWorker_cap_invariant (st : GameState) (a : WorkerType)
    (h : ∀ u, (st.workers.get u).count ≤ WORKER_LIMITS u) :
    ∀ u, ((hireWorker a st).1.workers.get u).count ≤ WORKER_LIMITS u := by
  intro u
  by_cases hcap : WORKER_LIMITS a ≤ (st.workers.get a).count
  · simp only [hireWorker]
    rw [if_pos hcap]
    exact h u
  · by_cases hgate : 0 < requiredMilestone a ∧ requiredMilestone a ∉ st.milestonesPurchased
    · simp only [hireWorker]
      rw [if_neg hcap, if_pos hgate]
      exact h u
    · by_cases hb : st.balance < (st.workers.get a).cost
      · simp only [hireWorker]
        rw [if_neg hcap, if_neg hgate, if_pos hb]
        exact h u
      · rw [hireWorker_success_workers st a hcap hgate hb]
        by_cases hu : u = a
        · subst hu
          rw [get_set_same]
          show (st.workers.get u).count + 1 ≤ WORKER_LIMITS u
          have := not_le.mp hcap
          omega
        · rw [get_set_ne _ _ _ _ hu]
          exact h u

end MStore

/-- C4: along any sequence of `hireWorker` calls from the initial state, every
worker count stays at or below its fixed cap, and a hire attempted at the cap
is rejected with no state change. -/
theorem C4_worker_cap :
    (∀ (startIso : String) (acts : List MStore.WorkerType) (t : MStore.WorkerType),
      ((acts.foldl (fun s a => (MStore.hireWorker a s).1)
          (MStore.initialState startIso)).workers.get t).count
        ≤ MStore.WORKER_LIMITS t) ∧
    (∀ (st : MStore.GameState) (t : MStore.WorkerType),
      MStore.WORKER_LIMITS t ≤ (st.workers.get t).count →
      MStore.hireWorker t st = (st, false)) := by
  constructor
  · have aux : ∀ (acts : List MStore.WorkerType) (st : MStore.GameState),
        (∀ u, (st.workers.get u).count ≤ MStore.WORKER_LIMITS u) →
        ∀ t, ((acts.foldl (fun s a => (MStore.hireWorker a s).1) st).workers.get t).count
          ≤ MStore.WORKER_LIMITS t := by
      intro acts
      induction acts with
      | nil => intro st h t; exact h t
      | cons a rest ih =>
        intro st h t
        simp only [List.foldl_cons]
        exact ih _ (MStore.hireWorker_cap_invariant st a h) t
    intro startIso acts t
    refine aux acts _ ?_ t
    intro u
    cases u <;> exact Nat.zero_le _
  · intro st t h
    simp only [MStore.hireWorker]
    rw [if_pos h]

/-- Witness for C4: with one director already hired (the cap for that type),
another director hire is rejected and the state is unchanged. -/
theorem C4_worker_cap_witness :
    MStore.hireWorker .director
        { MStore.initialState "" with
            workers := { (MStore.initialState "").workers with
                          director := { count := 1, cost := 5750000 } } }
      = ({ MStore.initialState "" with
            workers := { (MStore.initialState "").workers with
                          director := { count := 1, cost := 5750000 } } }, false) :=
  C4_worker_cap.2 _ .director (by decide)

namespace MStore

theorem costInvariant_of_eq {s1 s2 : GameState} (hu : s2.upgrades = s1.upgrades)
    (hw : s2.workers = s1.workers) (h : costInvariant s1) : costInvariant s2 := by
  unfold costInvariant at h ⊢
  rw [hu, hw]
  exact h

theorem applyAct_costInvariant (a : Act) (st : GameState) (h : costInvariant st) :
    costInvariant (applyAct a st) := by
  cases a with
  | click crit =>
    exact costInvariant_of_eq (checkForMilestone_upgrades _) (checkForMilestone_workers _) h
  | legacyUpgrade c v =>
    by_cases hb : st.balance < c
    · simp only [applyAct, purchaseUpgrade]
      rw [if_pos hb]
      exact h
    · simp only [applyAct, purchaseUpgrade]
      rw [if_neg hb]
      exact costInvariant_of_eq rfl rfl h
  | clickUpgrade =>
    by_cases hb : st.balance < st.upgrades.clickPower.cost
    · simp only [applyAct, purchaseClickUpgrade]
      rw [if_pos hb]
      exact h
    · simp only [applyAct, purchaseClickUpgrade]
      rw [if_neg hb]
      exact ⟨rfl, h.2.1, h.2.2⟩
  | workSpeedUpgrade =>
    by_cases hm : 5 ∉ st.milestonesPurchased
    · simp only [applyAct, purchaseWorkSpeedUpgrade]
      rw [if_pos hm]
      exact h
    · by_cases hb : st.balance < st.upgrades.workSpeed.cost
      · simp only [applyAct, purchaseWorkSpeedUpgrade]
        rw [if_neg hm, if_pos hb]
        exact h
      · simp only [applyAct, purchaseWorkSpeedUpgrade]
        rw [if_neg hm, if_neg hb]
        exact ⟨h.1, rfl, h.2.2⟩
  | hire a =>
    by_cases hcap : WORKER_LIMITS a ≤ (st.workers.get a).count
    · simp only [applyAct, hireWorker]
      rw [if_pos hcap]
      exact h
    · by_cases hgate : 0 < requiredMilestone a ∧ requiredMilestone a ∉ st.milestonesPurchased
      · simp only [applyAct, hireWorker]
        rw [if_neg hcap, if_pos hgate]
        exact h
      · by_cases hb : st.balance < (st.workers.get a).cost
        · simp only [applyAct, hireWorker]
          rw [if_neg hcap, if_neg hgate, if_pos hb]
          exact h
        · have hu : (hireWorker a st).1.upgrades = st.upgrades := by
            simp only [hireWorker]
            rw [if_neg hcap, if_neg hgate, if_neg hb]
          have hw := hireWorker_success_workers st a hcap hgate hb
          show costInvariant (hireWorker a st).1
          unfold costInvariant
          rw [hu, hw]
          refine ⟨h.1, h.2.1, ?_⟩
          intro t
          by_cases ht : t = a
          · subst ht
            rw [get_set_same]
          · rw [get_set_ne _ _ _ _ ht]
            exact h.2.2 t
  | milestone l =>
    cases hml : MILESTONE_UPGRADES_cost l with
    | none =>
      simp only [applyAct, purchaseMilestone, hml]
      exact h
    | some c =>
      by_cases hp : l ∈ st.milestonesPurchased
      · simp only [applyAct, purchaseMilestone, hml]
        rw [if_pos hp]
        exact h
      · by_cases hb : st.balance < c
        · simp only [applyAct, purchaseMilestone, hml]
          rw [if_neg hp, if_pos hb]
          exact h
        · simp only [applyAct, purchaseMilestone, hml]
          rw [if_neg hp, if_neg hb]
          exact costInvariant_of_eq rfl rfl h
  | tick =>
    by_cases hp : st.passiveIncomePerSecond ≤ 0
    · simp only [applyAct, passiveIncomeTick]
      rw [if_pos hp]
      exact h
    · simp only [applyAct, passiveIncomeTick]
      rw [if_neg hp]
      exact costInvariant_of_eq (checkForMilestone_upgrades _) (checkForMilestone_workers _) h
  | offline q =>
    exact costInvariant_of_eq (checkForMilestone_upgrades _) (checkForMilestone_workers _) h
  | closeModal =>
    exact costInvariant_of_eq rfl rfl h
  | milestoneRecheck =>
    exact costInvariant_of_eq (checkForMilestone_upgrades _) (checkForMilestone_workers _) h

end MStore

/-- C5: along every action sequence from the initial state, every stored
next-cost field equals `floor(base * 1.15^n)` for that item's stored level or
count `n`; a successful hire increments the count by exactly one and stores
the next cost at the incremented count.  From a fresh state with balance 600,
hiring an apprentice succeeds and yields balance 100, apprentice count 1 and
next apprentice cost `floor(500 * 1.15^1) = 575`. -/
theorem C5_cost_growth :
    (∀ (startIso : String) (acts : List MStore.Act),
      MStore.costInvariant (MStore.runActs acts (MStore.initialState startIso))) ∧
    (∀ (st : MStore.GameState) (t : MStore.WorkerType),
      (MStore.hireWorker t st).2 = true →
      ((MStore.hireWorker t st).1.workers.get t).count = (st.workers.get t).count + 1 ∧
      ((MStore.hireWorker t st).1.workers.get t).cost
        = MStore.calculateWorkerCost (MStore.BASE_COSTS_worker t)
            ((st.workers.get t).count + 1)) ∧
    (MStore.hireWorker .apprentice { MStore.initialState "" with balance := 600 }).2 = true ∧
    (MStore.hireWorker .apprentice
        { MStore.initialState "" with balance := 600 }).1.balance = 100 ∧
    ((MStore.hireWorker .apprentice
        { MStore.initialState "" with balance := 600 }).1.workers.get .apprentice).count = 1 ∧
    ((MStore.hireWorker .apprentice
        { MStore.initialState "" with balance := 600 }).1.workers.get .apprentice).cost = 575 ∧
    (575 : ℚ) = MStore.calculateWorkerCost 500 1 := by
  have hcap : ¬ MStore.WORKER_LIMITS .apprentice
      ≤ (({ MStore.initialState "" with balance := 600 } : MStore.GameState).workers.get
          .apprentice).count := by decide
  have hgate : ¬ (0 < MStore.requiredMilestone .apprentice ∧
      MStore.requiredMilestone .apprentice
        ∉ ({ MStore.initialState "" with balance := 600 } : MStore.GameState).milestonesPurchased) := by
    decide
  have hb : ¬ ({ MStore.initialState "" with balance := 600 } : MStore.GameState).balance
      < (({ MStore.initialState "" with balance := 600 } : MStore.GameState).workers.get
          .apprentice).cost := by decide
  refine ⟨?_, ?_, ?_, ?_, ?_, ?_, ?_⟩
  · intro startIso acts
    have hinit : MStore.costInvariant (MStore.initialState startIso) := by
      refine ⟨?_, ?_, ?_⟩
      · show (100 : ℚ) = MStore.calculateUpgradeCost MStore.BASE_COSTS_clickUpgrade 0
        norm_num [MStore.calculateUpgradeCost, MStore.BASE_COSTS_clickUpgrade,
                  MStore.COST_MULTIPLIER]
      · show (500 : ℚ) = MStore.calculateUpgradeCost MStore.BASE_COSTS_workSpeed 0
        norm_num [MStore.calculateUpgradeCost, MStore.BASE_COSTS_workSpeed,
                  MStore.COST_MULTIPLIER]
      · intro t
        cases t <;>
          norm_num [MStore.initialState, MStore.WorkersState.get, MStore.calculateWorkerCost,
                    MStore.BASE_COSTS_worker, MStore.COST_MULTIPLIER]
    have aux : ∀ (acts : List MStore.Act) (st : MStore.GameState),
        MStore.costInvariant st → MStore.costInvariant (MStore.runActs acts st) := by
      intro acts
      induction acts with
      | nil => intro st h; exact h
      | cons a rest ih =>
        intro st h
        simp only [MStore.runActs, List.foldl_cons]
        exact ih _ (MStore.applyAct_costInvariant a st h)
    exact aux acts _ hinit
  · intro st t hsuc
    by_cases hcap2 : MStore.WORKER_LIMITS t ≤ (st.workers.get t).count
    · exfalso
      have hf : (MStore.hireWorker t st).2 = false := by
        simp only [MStore.hireWorker]
        rw [if_pos hcap2]
      rw [hf] at hsuc
      exact Bool.noConfusion hsuc
    · by_cases hgate2 : 0 < MStore.requiredMilestone t ∧
          MStore.requiredMilestone t ∉ st.milestonesPurchased
      · exfalso
        have hf : (MStore.hireWorker t st).2 = false := by
          simp only [MStore.hireWorker]
          rw [if_neg hcap2, if_pos hgate2]
        rw [hf] at hsuc
        exact Bool.noConfusion hsuc
      · by_cases hb2 : st.balance < (st.workers.get t).cost
        · exfalso
          have hf : (MStore.hireWorker t st).2 = false := by
            simp only [MStore.hireWorker]
            rw [if_neg hcap2, if_neg hgate2, if_pos hb2]
          rw [hf] at hsuc
          exact Bool.noConfusion hsuc
        · rw [MStore.hireWorker_success_workers st t hcap2 hgate2 hb2, MStore.get_set_same]
          exact ⟨rfl, rfl⟩
  · simp only [MStore.hireWorker]
    rw [if_neg hcap, if_neg hgate, if_neg hb]
  · have hbal : (MStore.hireWorker .apprentice
        { MStore.initialState "" with balance := 600 }).1.balance
      = ({ MStore.initialState "" with balance := 600 } : MStore.GameState).balance
        - (({ MStore.initialState "" with balance := 600 } : MStore.GameState).workers.get
            .apprentice).cost := by
      simp only [MStore.hireWorker]
      rw [if_neg hcap, if_neg hgate, if_neg hb]
    rw [hbal]
    show (600 : ℚ) - 500 = 100
    norm_num
  · rw [MStore.hireWorker_success_workers _ .apprentice hcap hgate hb, MStore.get_set_same]
    rfl
  · rw [MStore.hireWorker_success_workers _ .apprentice hcap hgate hb, MStore.get_set_same]
    show MStore.calculateWorkerCost (MStore.BASE_COSTS_worker .apprentice) (0 + 1) = 575
    norm_num [MStore.calculateWorkerCost, MStore.BASE_COSTS_worker, MStore.COST_MULTIPLIER]
  · norm_num [MStore.calculateWorkerCost, MStore.COST_MULTIPLIER]

/-- Witness for C5: the hire-success clause applied at the concrete fresh
state with balance 600 — the apprentice count goes from 0 to 1 and the stored
cost becomes the cost formula at count 1. -/
theorem C5_cost_growth_witness :
    ((MStore.hireWorker .apprentice
        { MStore.initialState "" with balance := 600 }).1.workers.get .apprentice).count
      = (({ MStore.initialState "" with balance := 600 } : MStore.GameState).workers.get
          .apprentice).count + 1 ∧
    ((MStore.hireWorker .apprentice
        { MStore.initialState "" with balance := 600 }).1.workers.get .apprentice).cost
      = MStore.calculateWorkerCost (MStore.BASE_COSTS_worker .apprentice)
          ((({ MStore.initialState "" with balance := 600 } : MStore.GameState).workers.get
              .apprentice).count + 1) :=
  C5_cost_growth.2.1 _ .apprentice (by decide)

/-- C6: `calculateOfflineEarnings` returns the elapsed seconds clamped to
`[0, maxHours*3600]` times the rate, rounded to two decimals, whenever the
rate is positive, a prior timestamp exists and at least 60 seconds have
elapsed; it returns 0 when the rate is not positive, when there is no prior
timestamp, or when the elapsed time is under 60 seconds.  With a rate of 10
per second and a save 90 seconds old it returns 900. -/
theorem C6_offline_earnings (r maxH now ts : ℚ) :
    (r ≤ 0 → ∀ o, StorageService.calculateOfflineEarnings r maxH o now = 0) ∧
    StorageService.calculateOfflineEarnings r maxH none now = 0 ∧
    ((now - ts) / 1000 < 60 →
      StorageService.calculateOfflineEarnings r maxH (some ts) now = 0) ∧
    (0 < r → ts ≠ 0 → 60 ≤ (now - ts) / 1000 → 0 ≤ maxH →
      StorageService.calculateOfflineEarnings r maxH (some ts) now
        = jsToFixed2 (max 0 (min ((now - ts) / 1000) (maxH * 3600)) * r)) ∧
    StorageService.calculateOfflineEarnings 10 24 (some 1000) 91000 = 900 := by
  refine ⟨?_, ?_, ?_, ?_, ?_⟩
  · intro h o
    simp only [StorageService.calculateOfflineEarnings]
    rw [if_pos h]
  · simp only [StorageService.calculateOfflineEarnings]
    by_cases hr : r ≤ 0
    · rw [if_pos hr]
    · rw [if_neg hr]
  · intro h
    simp only [StorageService.calculateOfflineEarnings, StorageService.MIN_OFFLINE_SECONDS]
    by_cases hr : r ≤ 0
    · rw [if_pos hr]
    · rw [if_neg hr]
      by_cases hts : ts = 0
      · rw [if_pos hts]
      · rw [if_neg hts, if_pos h]
  · intro hr hts helap hmax
    simp only [StorageService.calculateOfflineEarnings, StorageService.MIN_OFFLINE_SECONDS,
               StorageService.SECONDS_PER_HOUR]
    rw [if_neg (not_le.mpr hr), if_neg hts, if_neg (not_lt.mpr helap)]
    have hnn : (0 : ℚ) ≤ min ((now - ts) / 1000) (maxH * 3600) :=
      le_min (by linarith) (mul_nonneg hmax (by norm_num))
    rw [max_eq_right hnn]
  · simp only [StorageService.calculateOfflineEarnings, StorageService.MIN_OFFLINE_SECONDS,
               StorageService.SECONDS_PER_HOUR]
    rw [if_neg (by norm_num : ¬ (10 : ℚ) ≤ 0), if_neg (by norm_num : ¬ (1000 : ℚ) = 0),
        if_neg (by norm_num : ¬ ((91000 : ℚ) - 1000) / 1000 < 60)]
    rw [show min (((91000 : ℚ) - 1000) / 1000) ((24 : ℚ) * 3600) = 90 by
          rw [min_eq_left (by norm_num)]
          norm_num]
    norm_num [jsToFixed2]

/-- Witness for C6: the positive-path clause applied at rate 10, timestamp
1000 ms, cap 24 hours, clock 91000 ms (90 elapsed seconds). -/
theorem C6_offline_earnings_witness :
    StorageService.calculateOfflineEarnings 10 24 (some 1000) 91000
      = jsToFixed2 (max 0 (min (((91000 : ℚ) - 1000) / 1000) ((24 : ℚ) * 3600)) * 10) :=
  (C6_offline_earnings 10 24 91000 1000).2.2.2.1 (by norm_num) (by norm_num)
    (by norm_num) (by norm_num)

/-- C8: the click value equals the table entry at the `clickPower` level for
levels up to 50, and past 50 it extrapolates geometrically as
`floor(table[50] * (table[50]/table[49])^(level-50))`; in all cases the result
is a positive integer. -/
theorem C8_click_income (n : ℕ) :
    (n ≤ 50 → TStore.calculateClickIncome n = TStore.CLICK_INCOME_TABLE.getD n 0) ∧
    (50 < n → TStore.calculateClickIncome n
        = ((⌊(343993 : ℚ) * ((343993 : ℚ) / 272153) ^ (n - 50)⌋ : ℤ) : ℚ)) ∧
    (∃ k : ℕ, TStore.calculateClickIncome n = (k : ℚ) ∧ 0 < k) := by
  have hlen : TStore.CLICK_INCOME_TABLE.length = 51 := rfl
  have hval : ∀ m, 50 < m → TStore.calculateClickIncome m
      = ((⌊(343993 : ℚ) * ((343993 : ℚ) / 272153) ^ (m - 50)⌋ : ℤ) : ℚ) := by
    intro m hm
    simp only [TStore.calculateClickIncome]
    rw [if_neg (by rw [hlen]; omega)]
    rfl
  have hlow : ∀ m, m ≤ 50 →
      TStore.calculateClickIncome m = TStore.CLICK_INCOME_TABLE.getD m 0 := by
    intro m hm
    simp only [TStore.calculateClickIncome]
    rw [if_pos (by rw [hlen]; omega)]
  refine ⟨hlow n, hval n, ?_⟩
  by_cases hn : n ≤ 50
  · have htab : ∀ m, m < 51 →
        TStore.CLICK_INCOME_TABLE.getD m 0
          = ((TStore.CLICK_INCOME_TABLE.getD m 0).num.toNat : ℚ) ∧
        0 < (TStore.CLICK_INCOME_TABLE.getD m 0).num.toNat := by decide
    refine ⟨(TStore.CLICK_INCOME_TABLE.getD n 0).num.toNat, ?_, (htab n (by omega)).2⟩
    rw [hlow n hn]
    exact (htab n (by omega)).1
  · push_neg at hn
    have hp1 : (1 : ℚ) ≤ ((343993 : ℚ) / 272153) ^ (n - 50) :=
      one_le_pow₀ (by norm_num)
    have hge : (343993 : ℚ) ≤ 343993 * ((343993 : ℚ) / 272153) ^ (n - 50) :=
      le_mul_of_one_le_right (by norm_num) hp1
    have hfl : (343993 : ℤ) ≤ ⌊(343993 : ℚ) * ((343993 : ℚ) / 272153) ^ (n - 50)⌋ :=
      Int.le_floor.mpr (by exact_mod_cast hge)
    have hpos : (0 : ℤ) < ⌊(343993 : ℚ) * ((343993 : ℚ) / 272153) ^ (n - 50)⌋ :=
      lt_of_lt_of_le (by norm_num) hfl
    refine ⟨(⌊(343993 : ℚ) * ((343993 : ℚ) / 272153) ^ (n - 50)⌋).toNat, ?_, ?_⟩
    · rw [hval n hn]
      norm_cast
      exact (Int.toNat_of_nonneg (le_of_lt hpos)).symm
    · exact Int.lt_toNat.mpr hpos

/-- Witness for C8: the tabulated clause applied at level 10 — the click
value is the table entry 27. -/
theorem C8_click_income_witness :
    TStore.calculateClickIncome 10 = TStore.CLICK_INCOME_TABLE.getD 10 0 :=
  (C8_click_income 10).1 (by omega)

theorem le_jsToFixed2_add (b off : ℚ) (h : 1/100 ≤ off) : b ≤ jsToFixed2 (b + off) := by
  have h1 : ((b + off) * 100 + 1/2) - 1 < ((⌊(b + off) * 100 + 1/2⌋ : ℤ) : ℚ) :=
    Int.sub_one_lt_floor _
  unfold jsToFixed2
  rw [le_div_iff₀ (by norm_num : (0 : ℚ) < 100)]
  linarith

namespace MStore

theorem offlineSpec_cases (r ts mh now : ℚ) :
    calculateOfflineEarningsSpec r ts mh now = 0 ∨
    ∃ m : ℤ, calculateOfflineEarningsSpec r ts mh now = (m : ℚ) / 100 := by
  simp only [calculateOfflineEarningsSpec, jsToFixed2]
  split_ifs
  · exact Or.inl rfl
  · exact Or.inl rfl
  · exact Or.inl rfl
  · exact Or.inr ⟨_, rfl⟩

theorem offlineSpec_pos_ge (r ts mh now : ℚ)
    (h : 0 < calculateOfflineEarningsSpec r ts mh now) :
    1/100 ≤ calculateOfflineEarningsSpec r ts mh now := by
  rcases offlineSpec_cases r ts mh now with h0 | ⟨m, hm⟩
  · rw [h0] at h
    exact absurd h (lt_irrefl 0)
  · rw [hm] at h ⊢
    have hm0 : (0 : ℚ) < (m : ℚ) := by
      rcases div_pos_iff.mp h with ⟨ha, _⟩ | ⟨_, hb⟩
      · exact ha
      · norm_num at hb
    have hm1 : (1 : ℚ) ≤ (m : ℚ) := by
      have : (0 : ℤ) < m := by exact_mod_cast hm0
      exact_mod_cast this
    linarith

theorem reload_level_inv (st1 : GameState) (off : ℚ)
    (hlvl : st1.garageLevel = checkAutoLevel st1.balance 1 st1.milestonesPurchased)
    (hoff : 0 < off → 1/100 ≤ off) :
    (checkForMilestone
        (if 0 < off then addOfflineEarnings off st1 else st1)).garageLevel
      = checkAutoLevel
          (checkForMilestone
            (if 0 < off then addOfflineEarnings off st1 else st1)).balance 1
          st1.milestonesPurchased ∧
    (checkForMilestone
        (if 0 < off then addOfflineEarnings off st1 else st1)).milestonesPurchased
      = st1.milestonesPurchased := by
  by_cases h : 0 < off
  · rw [if_pos h]
    have hb : st1.balance ≤ jsToFixed2 (st1.balance + off) := le_jsToFixed2_add _ _ (hoff h)
    constructor
    · simp only [addOfflineEarnings, checkForMilestone_garageLevel, checkForMilestone_balance,
                 checkForMilestone_milestonesPurchased]
      show checkAutoLevel (jsToFixed2 (st1.balance + off)) st1.garageLevel st1.milestonesPurchased
        = checkAutoLevel (jsToFixed2 (st1.balance + off)) 1 st1.milestonesPurchased
      rw [hlvl]
      exact checkAutoLevel_absorb st1.balance _ 1 _ hb
    · simp only [addOfflineEarnings, checkForMilestone_milestonesPurchased]
  · rw [if_neg h]
    refine ⟨?_, checkForMilestone_milestonesPurchased st1⟩
    rw [checkForMilestone_garageLevel, checkForMilestone_balance]
    exact hlvl

end MStore

/-- C10: `loadProgress` ignores the `garageLevel` stored in the save document
(loading a document with any overwritten stored level gives the same result),
and after loading, the state's `garageLevel` equals `checkAutoLevel` of the
state's balance seeded from level 1 with the restored milestone set — the
auto-level invariant is re-established even when the stored level disagrees
with the stored balance. -/
theorem C10_load_recomputes_level (d : MStore.SaveData) (g : ℕ) (now : ℚ)
    (nowIso : String) (st : MStore.GameState) :
    MStore.loadProgress
        (some { d with playerData := { d.playerData with garageLevel := g } }) now nowIso st
      = MStore.loadProgress (some d) now nowIso st ∧
    (MStore.loadProgress (some d) now nowIso st).garageLevel
      = MStore.checkAutoLevel (MStore.loadProgress (some d) now nowIso st).balance 1
          (d.playerData.milestonesPurchased.getD []) ∧
    (MStore.loadProgress (some d) now nowIso st).milestonesPurchased
      = d.playerData.milestonesPurchased.getD [] := by
  refine ⟨rfl, ?_, ?_⟩
  · exact (MStore.reload_level_inv _ _ rfl
      (fun h => MStore.offlineSpec_pos_ge _ _ _ _ h)).1
  · exact (MStore.reload_level_inv _ _ rfl
      (fun h => MStore.offlineSpec_pos_ge _ _ _ _ h)).2

namespace StorageService

theorem deepMerge_toPartial (t : SaveData) (d : SaveData) :
    deepMerge t (toPartial d) = d := rfl

theorem isValid_toPartial (d : SaveData) : isValidSaveData (toPartial d) = true := rfl

theorem restoresGiven_stamp {p : PSaveData} {d : SaveData} {v ts : ℚ}
    (h : restoresGiven p d) :
    restoresGiven p { d with version := v, timestamp := ts } := h

theorem backfillsDefault_stamp {p : PSaveData} {d : SaveData} {v ts : ℚ}
    (h : backfillsDefault p d) :
    backfillsDefault p { d with version := v, timestamp := ts } := h

theorem restoresGiven_deepMerge (t : SaveData) (p : PSaveData) :
    restoresGiven p (deepMerge t p) := by
  refine ⟨?_, ?_, ?_, ?_⟩
  · intro pd hpd
    refine ⟨?_, ?_, ?_, ?_⟩ <;> intro v hv <;>
      simp [deepMerge, mergePlayerData, hpd, hv]
  · intro u hu
    refine ⟨?_, ?_⟩ <;> intro lc hlc <;> refine ⟨?_, ?_⟩ <;> intro v hv <;>
      simp [deepMerge, mergeUpgrades, mergeLevelCost, hu, hlc, hv]
  · intro w hw
    refine ⟨?_, ?_⟩ <;> intro e he <;> refine ⟨?_, ?_⟩ <;> intro v hv <;>
      simp [deepMerge, mergeWorkers, mergeWorkerEntry, hw, he, hv]
  · intro s hs
    refine ⟨?_, ?_, ?_⟩ <;> intro v hv <;>
      simp [deepMerge, mergeStats, hs, hv]

theorem backfillsDefault_deepMerge (p : PSaveData) :
    backfillsDefault p (deepMerge DEFAULT_SAVE_DATA p) := by
  refine ⟨?_, ?_, ?_, ?_, ?_, ?_, ?_, ?_⟩
  · intro h
    simp [deepMerge, h]
  · intro pd hpd
    refine ⟨?_, ?_, ?_, ?_⟩ <;> intro hv <;>
      simp [deepMerge, mergePlayerData, hpd, hv]
  · intro h
    simp [deepMerge, h]
  · intro u hu
    refine ⟨?_, ?_⟩ <;> intro hv <;>
      simp [deepMerge, mergeUpgrades, hu, hv]
  · intro h
    simp [deepMerge, h]
  · intro w hw
    refine ⟨?_, ?_⟩ <;> intro hv <;>
      simp [deepMerge, mergeWorkers, hw, hv]
  · intro h
    simp [deepMerge, h]
  · intro s hs
    refine ⟨?_, ?_, ?_⟩ <;> intro hv <;>
      simp [deepMerge, mergeStats, hs, hv]

end StorageService

/-- C7: `saveGame` reports success, and `loadGame` after `saveGame(doc)`
returns a document that restores every field `saveGame` was given, stamped
with the save version and the save-time timestamp; against empty storage,
every field absent from the given document is backfilled from the default
document.  For a fully-specified document this makes save-then-load the
identity on all given fields. -/
theorem C7_save_load_roundtrip (storage : StorageService.Storage)
    (p : StorageService.PSaveData) (now : ℚ) :
    (StorageService.saveGame storage p now).2 = true ∧
    (∃ d, StorageService.loadGame (StorageService.saveGame storage p now).1 = some d ∧
      d.version = 1 ∧ d.timestamp = now ∧
      StorageService.restoresGiven p d) ∧
    (storage = none →
      ∃ d, StorageService.loadGame (StorageService.saveGame none p now).1 = some d ∧
        StorageService.backfillsDefault p d ∧
        StorageService.restoresGiven p d) := by
  refine ⟨rfl, ?_, ?_⟩
  · refine ⟨{ StorageService.deepMerge
        ((StorageService.loadGame storage).getD StorageService.DEFAULT_SAVE_DATA) p with
        version := 1, timestamp := now }, ?_, rfl, rfl, ?_⟩
    · show StorageService.loadGame (some (StorageService.toPartial _)) = _
      simp only [StorageService.loadGame]
      rw [if_pos (StorageService.isValid_toPartial _), StorageService.deepMerge_toPartial]
      rfl
    · exact StorageService.restoresGiven_stamp
        (StorageService.restoresGiven_deepMerge _ p)
  · intro _
    refine ⟨{ StorageService.deepMerge StorageService.DEFAULT_SAVE_DATA p with
        version := 1, timestamp := now }, ?_, ?_, ?_⟩
    · show StorageService.loadGame (some (StorageService.toPartial _)) = _
      simp only [StorageService.loadGame]
      rw [if_pos (StorageService.isValid_toPartial _), StorageService.deepMerge_toPartial]
      rfl
    · exact StorageService.backfillsDefault_stamp
        (StorageService.backfillsDefault_deepMerge p)
    · exact StorageService.restoresGiven_stamp
        (StorageService.restoresGiven_deepMerge _ p)

/-- Witness for C7: saving the fully-specified default document into empty
storage and loading back yields a document, with absent-field backfill
(vacuous here) and restoration of every given field. -/
theorem C7_save_load_roundtrip_witness :
    ∃ d, StorageService.loadGame
        (StorageService.saveGame none
          (StorageService.toPartial StorageService.DEFAULT_SAVE_DATA) 12345).1 = some d ∧
      StorageService.backfillsDefault
        (StorageService.toPartial StorageService.DEFAULT_SAVE_DATA) d ∧
      StorageService.restoresGiven
        (StorageService.toPartial StorageService.DEFAULT_SAVE_DATA) d :=
  (C7_save_load_roundtrip none
    (StorageService.toPartial StorageService.DEFAULT_SAVE_DATA) 12345).2.2 rfl
